import Mathlib

/-!
# Verification of the debounce-toolkit controller

A shallow embedding of `src/debounce.ts` from the `debounce-toolkit`
repository.  The debounced function is a small state machine over four
mutable variables (`timeoutId`, `lastArgs`, `lastThis`, `leadingCalled`);
we model it as explicit state passing.  Each operation of the source
(`debounced(...)`, the `setTimeout` callback, `cancel`, `flush`,
`pending`) becomes a pure Lean function from a state to a new state,
together with the list of invocations of the wrapped target it performs
and a flag recording whether an exception raised by the target
propagated out of the operation (the source does not catch exceptions
from `fn.apply`, so any later statements of the operation are skipped).

Time is modelled with natural-number instants.  A scheduled timer is an
owned handle carrying its deadline and the `shouldCallLeading` /
`shouldCallTrailing` booleans captured by the closure that
`debounced` passed to `setTimeout`.
-/

namespace Debounce

/-- The three debounce modes of `DebounceMode` in `src/types.ts`. -/
inductive DebounceMode where
  | TRAILING
  | LEADING
  | BOTH
deriving DecidableEq, Repr

/-- `mode === LEADING || mode === BOTH` as used at line 76 of the source. -/
def isLeadingMode : DebounceMode → Bool
  | .LEADING => true
  | .BOTH => true
  | .TRAILING => false

/-- `mode === TRAILING || mode === BOTH` as used at line 79 of the source. -/
def isTrailingMode : DebounceMode → Bool
  | .TRAILING => true
  | .BOTH => true
  | .LEADING => false

/-- A scheduled-callback handle: the deadline at which the callback runs,
plus the values of `shouldCallLeading` and `shouldCallTrailing` captured by
the closure passed to `setTimeout` at line 91 of the source. -/
structure TimerTask where
  deadline : Nat
  shouldCallLeading : Bool
  shouldCallTrailing : Bool
deriving DecidableEq, Repr

/-- The mutable state closed over by `debounced`: `timeoutId`, `lastArgs`,
`lastThis` and `leadingCalled` (lines 56-59 of the source).  `α` is the
type of argument lists, `ρ` the type of receivers (`this` bindings). -/
structure DState (α ρ : Type) where
  timeoutId : Option TimerTask
  lastArgs : Option α
  lastThis : Option ρ
  leadingCalled : Bool
deriving DecidableEq, Repr

/-- The state of a freshly constructed controller: all slots empty. -/
def initState {α ρ : Type} : DState α ρ :=
  { timeoutId := none, lastArgs := none, lastThis := none, leadingCalled := false }

/-- One synchronous invocation of the wrapped target: the instant at which
it happens and the `lastArgs` / `lastThis` values passed to `fn.apply`. -/
structure Invocation (α ρ : Type) where
  time : Nat
  args : Option α
  receiver : Option ρ
deriving DecidableEq, Repr

/-- The `cleanup` helper (lines 61-66): releases the timer handle if one
is owned.  `clearTimeout` itself has no observable effect beyond the
handle becoming dead, so the state change is `timeoutId := none`. -/
def cleanup {α ρ : Type} (s : DState α ρ) : DState α ρ :=
  { s with timeoutId := none }

/-- The body of `debounced` (lines 68-98), called at instant `now` with
argument list `args` and receiver `receiver`.  `raises` tells whether the
wrapped target raises during the leading-edge `fn.apply` at line 86; when
it does, the following statements (setting `leadingCalled` and scheduling
the timer) are skipped and the exception propagates (third component
`true`).  Returns the new state, the invocations performed, and the
propagation flag. -/
def callStep {α ρ : Type} (mode : DebounceMode) (wait : Nat) (now : Nat)
    (args : α) (receiver : ρ) (raises : Bool) (s : DState α ρ) :
    DState α ρ × List (Invocation α ρ) × Bool :=
  let s1 : DState α ρ := { s with lastArgs := some args, lastThis := some receiver }
  let shouldCallLeading : Bool := isLeadingMode mode && !s1.leadingCalled
  let shouldCallTrailing : Bool := isTrailingMode mode
  let s2 := cleanup s1
  if shouldCallLeading then
    let inv : Invocation α ρ := ⟨now, s2.lastArgs, s2.lastThis⟩
    if raises then
      (s2, [inv], true)
    else
      let s3 : DState α ρ := { s2 with leadingCalled := true }
      ({ s3 with timeoutId := some ⟨now + wait, shouldCallLeading, shouldCallTrailing⟩ },
        [inv], false)
  else
    ({ s2 with timeoutId := some ⟨now + wait, shouldCallLeading, shouldCallTrailing⟩ },
      [], false)

/-- The `setTimeout` callback (lines 91-97) running at its deadline.  It
fires the trailing edge when `shouldCallTrailing && (!shouldCallLeading ||
leadingCalled)`, reading the current `lastThis` / `lastArgs`.  `raises`
tells whether the target raises during that `fn.apply`; when it does, the
statements clearing `timeoutId` and resetting `leadingCalled` are skipped.
When no timer is owned the callback cannot run and the state is
unchanged. -/
def fireStep {α ρ : Type} (raises : Bool) (s : DState α ρ) :
    DState α ρ × List (Invocation α ρ) × Bool :=
  match s.timeoutId with
  | none => (s, [], false)
  | some tm =>
    if tm.shouldCallTrailing && (!tm.shouldCallLeading || s.leadingCalled) then
      let inv : Invocation α ρ := ⟨tm.deadline, s.lastArgs, s.lastThis⟩
      if raises then
        (s, [inv], true)
      else
        ({ s with timeoutId := none, leadingCalled := false }, [inv], false)
    else
      ({ s with timeoutId := none, leadingCalled := false }, [], false)

/-- `debounced.cancel` (lines 101-104): release any timer handle, reset
`leadingCalled`.  It never invokes the target and never raises. -/
def cancelStep {α ρ : Type} (s : DState α ρ) : DState α ρ :=
  { cleanup s with leadingCalled := false }

/-- `debounced.flush` (lines 106-112) at instant `now`: when both
`timeoutId` and `lastArgs` are non-null, release the handle and invoke the
target with the recorded receiver and arguments; `raises` tells whether
that `fn.apply` raises, in which case the `leadingCalled = false`
statement is skipped.  Otherwise a no-op. -/
def flushStep {α ρ : Type} (now : Nat) (raises : Bool) (s : DState α ρ) :
    DState α ρ × List (Invocation α ρ) × Bool :=
  if s.timeoutId.isSome && s.lastArgs.isSome then
    let s2 := cleanup s
    let inv : Invocation α ρ := ⟨now, s2.lastArgs, s2.lastThis⟩
    if raises then
      (s2, [inv], true)
    else
      ({ s2 with leadingCalled := false }, [inv], false)
  else
    (s, [], false)

/-- `debounced.pending` (line 114): `timeoutId !== null`. -/
def pendingQ {α ρ : Type} (s : DState α ρ) : Bool :=
  s.timeoutId.isSome

/-! ## Timed runs

External events delivered to a controller: invocations of the debounced
function, `cancel`, and `flush`.  `call` and `flush` carry the flag
saying whether the wrapped target raises during the synchronous
invocation they may perform.  A run processes a list of time-stamped
events in order; before each event, a pending timer whose deadline has
already passed fires (at its deadline), which is how the host's event
loop interleaves the `setTimeout` callback with later synchronous
activity. -/

inductive Event (α ρ : Type) where
  | call (args : α) (receiver : ρ) (raises : Bool)
  | cancel
  | flush (raises : Bool)
deriving DecidableEq, Repr

/-- A run in progress: controller state plus the log of all target
invocations so far, in order. -/
structure RunState (α ρ : Type) where
  st : DState α ρ
  log : List (Invocation α ρ)
deriving DecidableEq, Repr

/-- Fire the owned timer if its deadline is at or before instant `t`.
The target is assumed not to raise during scheduled fires in these runs. -/
def fireIfDue {α ρ : Type} (t : Nat) (rs : RunState α ρ) : RunState α ρ :=
  match rs.st.timeoutId with
  | some tm =>
    if tm.deadline ≤ t then
      let r := fireStep false rs.st
      ⟨r.1, rs.log ++ r.2.1⟩
    else rs
  | none => rs

/-- Deliver one event at instant `t`: first let any due timer fire, then
perform the event's operation. -/
def procEvent {α ρ : Type} (mode : DebounceMode) (wait : Nat) (t : Nat)
    (e : Event α ρ) (rs : RunState α ρ) : RunState α ρ :=
  let rs1 := fireIfDue t rs
  match e with
  | .call args receiver raises =>
    let r := callStep mode wait t args receiver raises rs1.st
    ⟨r.1, rs1.log ++ r.2.1⟩
  | .cancel => ⟨cancelStep rs1.st, rs1.log⟩
  | .flush raises =>
    let r := flushStep t raises rs1.st
    ⟨r.1, rs1.log ++ r.2.1⟩

/-- Process a time-stamped event list in order. -/
def runEvents {α ρ : Type} (mode : DebounceMode) (wait : Nat) :
    List (Nat × Event α ρ) → RunState α ρ → RunState α ρ
  | [], rs => rs
  | (t, e) :: rest, rs => runEvents mode wait rest (procEvent mode wait t e rs)

/-- After the last event, let the remaining timer (if any) fire at its
deadline. -/
def finish {α ρ : Type} (rs : RunState α ρ) : RunState α ρ :=
  let r := fireStep false rs.st
  ⟨r.1, rs.log ++ r.2.1⟩

/-- A complete run from a fresh controller: all events, then quiescence. -/
def runAll {α ρ : Type} (mode : DebounceMode) (wait : Nat)
    (tr : List (Nat × Event α ρ)) : RunState α ρ :=
  finish (runEvents mode wait tr ⟨initState, []⟩)

/-- A controller state is reachable when some time-stamped event trace
leads a fresh controller to it. -/
def Reachable {α ρ : Type} (mode : DebounceMode) (wait : Nat) (s : DState α ρ) : Prop :=
  ∃ tr : List (Nat × Event α ρ), (runEvents mode wait tr ⟨initState, []⟩).st = s

/-! ## Bursts

A burst is a sequence of calls in which each call happens at or after the
previous one and strictly less than `wait` later, so no timer deadline
falls between two consecutive calls. -/

/-- The spacing condition between two consecutive time-stamped calls of a
burst: the later call happens no earlier, and strictly less than `wait`
after the earlier one. -/
def spaced {α ρ : Type} (wait : Nat) (p q : Nat × α × ρ) : Prop :=
  p.1 ≤ q.1 ∧ q.1 < p.1 + wait

instance {α ρ : Type} (wait : Nat) (p q : Nat × α × ρ) :
    Decidable (spaced wait p q) :=
  inferInstanceAs (Decidable (p.1 ≤ q.1 ∧ q.1 < p.1 + wait))

/-- Turn time-stamped calls into a pure-call event trace in which the
target never raises. -/
def toTrace {α ρ : Type} (calls : List (Nat × α × ρ)) : List (Nat × Event α ρ) :=
  calls.map (fun p => (p.1, Event.call p.2.1 p.2.2 false))

/-- The state of a controller in the middle of a burst: one owned timer,
the last call's arguments and receiver recorded. -/
def midState {α ρ : Type} (tm : TimerTask) (a : α) (r : ρ) (lc : Bool) : DState α ρ :=
  { timeoutId := some tm, lastArgs := some a, lastThis := some r, leadingCalled := lc }

/-- The default value of `getLast?.getD` is irrelevant on a nonempty list. -/
lemma getLastD_irrel {β : Type} (x : β) (l : List β) (d1 d2 : β) :
    (x :: l).getLast?.getD d1 = (x :: l).getLast?.getD d2 := by
  induction l generalizing x with
  | nil => rfl
  | cons y ys ih => rw [List.getLast?_cons_cons]; exact ih y

/-- Delivering the tail of a burst to a mid-burst controller never fires
the timer and never invokes the target: each call merely re-records the
arguments and replaces the timer, as long as no leading edge is due
(`isLeadingMode mode && !lc = false`). -/
lemma burst_aux {α ρ : Type} (mode : DebounceMode) (wait : Nat) :
    ∀ (cs : List (Nat × α × ρ)) (t : Nat) (a : α) (r : ρ) (fl ft lc : Bool)
      (L : List (Invocation α ρ)),
      (isLeadingMode mode && !lc) = false →
      List.Chain' (spaced wait) ((t, a, r) :: cs) →
      runEvents mode wait (toTrace cs) ⟨midState ⟨t + wait, fl, ft⟩ a r lc, L⟩ =
        ⟨midState ⟨(cs.getLastD (t, a, r)).1 + wait,
                   if cs.isEmpty then fl else false,
                   if cs.isEmpty then ft else isTrailingMode mode⟩
            (cs.getLastD (t, a, r)).2.1 (cs.getLastD (t, a, r)).2.2 lc, L⟩ := by
  intro cs
  induction cs with
  | nil =>
    intro t a r fl ft lc L hlc hchain
    simp [toTrace, runEvents]
  | cons hd rest ih =>
    intro t a r fl ft lc L hlc hchain
    obtain ⟨t2, a2, r2⟩ := hd
    rw [List.chain'_cons] at hchain
    obtain ⟨⟨hle, hlt⟩, htail⟩ := hchain
    have hfire : ¬ (t + wait ≤ t2) := Nat.not_le.mpr hlt
    have hstep : procEvent mode wait t2 (Event.call a2 r2 false)
        ⟨midState ⟨t + wait, fl, ft⟩ a r lc, L⟩ =
        ⟨midState ⟨t2 + wait, false, isTrailingMode mode⟩ a2 r2 lc, L⟩ := by
      simp [procEvent, fireIfDue, midState, hfire, callStep, cleanup, hlc]
    have hcons : toTrace ((t2, a2, r2) :: rest)
        = (t2, Event.call a2 r2 false) :: toTrace rest := rfl
    rw [hcons, runEvents, hstep, ih t2 a2 r2 false (isTrailingMode mode) lc L hlc htail]
    cases rest with
    | nil => simp
    | cons h2 t2r =>
      simp [List.getLast?_cons_cons, getLastD_irrel h2 t2r (t2, a2, r2) (t, a, r)]

/-! ## Claim theorems: the three modes on bursts -/

/-- C1: In TRAILING mode, for every sequence of calls in which each call
occurs less than `waitMs` after the previous one, no invocation happens
during the burst, and the complete run performs exactly one invocation:
at `waitMs` after the last call, with the last call's arguments and
receiver. -/
theorem trailing_burst_unique {α ρ : Type} (wait : Nat) (c : Nat × α × ρ)
    (cs : List (Nat × α × ρ)) (hchain : List.Chain' (spaced wait) (c :: cs)) :
    (runEvents DebounceMode.TRAILING wait (toTrace (c :: cs))
        ⟨initState, []⟩).log = [] ∧
    (runAll DebounceMode.TRAILING wait (toTrace (c :: cs))).log =
      [⟨(cs.getLastD c).1 + wait, some (cs.getLastD c).2.1, some (cs.getLastD c).2.2⟩] := by
  obtain ⟨t0, a0, r0⟩ := c
  have h0 : procEvent DebounceMode.TRAILING wait t0 (Event.call a0 r0 false)
      (⟨initState, []⟩ : RunState α ρ) =
      ⟨midState ⟨t0 + wait, false, true⟩ a0 r0 false, []⟩ := by
    simp [procEvent, fireIfDue, initState, callStep, cleanup, isLeadingMode,
      isTrailingMode, midState]
  have hcons : toTrace ((t0, a0, r0) :: cs)
      = (t0, Event.call a0 r0 false) :: toTrace cs := rfl
  have hrun : runEvents DebounceMode.TRAILING wait (toTrace ((t0, a0, r0) :: cs))
      ⟨initState, []⟩ =
      ⟨midState ⟨(cs.getLastD (t0, a0, r0)).1 + wait,
          if cs.isEmpty then false else false,
          if cs.isEmpty then true else isTrailingMode DebounceMode.TRAILING⟩
        (cs.getLastD (t0, a0, r0)).2.1 (cs.getLastD (t0, a0, r0)).2.2 false, []⟩ := by
    rw [hcons, runEvents, h0]
    exact burst_aux DebounceMode.TRAILING wait cs t0 a0 r0 false true false []
      (by decide) hchain
  refine ⟨by rw [hrun], ?_⟩
  rw [runAll, hrun]
  simp [finish, fireStep, midState, isTrailingMode]

/-- C2: In BOTH mode, an uninterrupted burst yields exactly two
invocations: one synchronously at the first call with its arguments, and
one at `waitMs` after the last call with the last call's arguments;
moreover `leadingCalled` is still true when the timer fires, so the
trailing fire condition holds. -/
theorem both_burst_two_invocations {α ρ : Type} (wait : Nat) (c : Nat × α × ρ)
    (cs : List (Nat × α × ρ)) (hchain : List.Chain' (spaced wait) (c :: cs)) :
    (runEvents DebounceMode.BOTH wait (toTrace (c :: cs)) ⟨initState, []⟩).log
        = [⟨c.1, some c.2.1, some c.2.2⟩] ∧
    (runEvents DebounceMode.BOTH wait (toTrace (c :: cs))
        ⟨initState, []⟩).st.leadingCalled = true ∧
    (runAll DebounceMode.BOTH wait (toTrace (c :: cs))).log =
      [⟨c.1, some c.2.1, some c.2.2⟩,
       ⟨(cs.getLastD c).1 + wait, some (cs.getLastD c).2.1, some (cs.getLastD c).2.2⟩] := by
  obtain ⟨t0, a0, r0⟩ := c
  have h0 : procEvent DebounceMode.BOTH wait t0 (Event.call a0 r0 false)
      (⟨initState, []⟩ : RunState α ρ) =
      ⟨midState ⟨t0 + wait, true, true⟩ a0 r0 true, [⟨t0, some a0, some r0⟩]⟩ := by
    simp [procEvent, fireIfDue, initState, callStep, cleanup, isLeadingMode,
      isTrailingMode, midState]
  have hcons : toTrace ((t0, a0, r0) :: cs)
      = (t0, Event.call a0 r0 false) :: toTrace cs := rfl
  have hrun : runEvents DebounceMode.BOTH wait (toTrace ((t0, a0, r0) :: cs))
      ⟨initState, []⟩ =
      ⟨midState ⟨(cs.getLastD (t0, a0, r0)).1 + wait,
          if cs.isEmpty then true else false,
          if cs.isEmpty then true else isTrailingMode DebounceMode.BOTH⟩
        (cs.getLastD (t0, a0, r0)).2.1 (cs.getLastD (t0, a0, r0)).2.2 true,
        [⟨t0, some a0, some r0⟩]⟩ := by
    rw [hcons, runEvents, h0]
    exact burst_aux DebounceMode.BOTH wait cs t0 a0 r0 true true true
      [⟨t0, some a0, some r0⟩] (by decide) hchain
  refine ⟨by rw [hrun], by rw [hrun]; rfl, ?_⟩
  rw [runAll, hrun]
  simp [finish, fireStep, midState, isTrailingMode]

/-- C3: In LEADING mode, the first call of a burst invokes the target
synchronously; subsequent burst calls produce no invocation; when the
countdown elapses the state resets with no trailing invocation; and a
call delivered to the reset state again invokes the target synchronously
with its own arguments. -/
theorem leading_burst_single_invocation {α ρ : Type} (wait : Nat) (c : Nat × α × ρ)
    (cs : List (Nat × α × ρ)) (hchain : List.Chain' (spaced wait) (c :: cs)) :
    (runAll DebounceMode.LEADING wait (toTrace (c :: cs))).log
        = [⟨c.1, some c.2.1, some c.2.2⟩] ∧
    (runAll DebounceMode.LEADING wait (toTrace (c :: cs))).st =
      { timeoutId := none, lastArgs := some (cs.getLastD c).2.1,
        lastThis := some (cs.getLastD c).2.2, leadingCalled := false } ∧
    (∀ (t1 : Nat) (a1 : α) (r1 : ρ),
      (callStep DebounceMode.LEADING wait t1 a1 r1 false
          (runAll DebounceMode.LEADING wait (toTrace (c :: cs))).st).2.1
        = [⟨t1, some a1, some r1⟩]) := by
  obtain ⟨t0, a0, r0⟩ := c
  have h0 : procEvent DebounceMode.LEADING wait t0 (Event.call a0 r0 false)
      (⟨initState, []⟩ : RunState α ρ) =
      ⟨midState ⟨t0 + wait, true, false⟩ a0 r0 true, [⟨t0, some a0, some r0⟩]⟩ := by
    simp [procEvent, fireIfDue, initState, callStep, cleanup, isLeadingMode,
      isTrailingMode, midState]
  have hcons : toTrace ((t0, a0, r0) :: cs)
      = (t0, Event.call a0 r0 false) :: toTrace cs := rfl
  have hrun : runEvents DebounceMode.LEADING wait (toTrace ((t0, a0, r0) :: cs))
      ⟨initState, []⟩ =
      ⟨midState ⟨(cs.getLastD (t0, a0, r0)).1 + wait,
          if cs.isEmpty then true else false,
          if cs.isEmpty then false else isTrailingMode DebounceMode.LEADING⟩
        (cs.getLastD (t0, a0, r0)).2.1 (cs.getLastD (t0, a0, r0)).2.2 true,
        [⟨t0, some a0, some r0⟩]⟩ := by
    rw [hcons, runEvents, h0]
    exact burst_aux DebounceMode.LEADING wait cs t0 a0 r0 true false true
      [⟨t0, some a0, some r0⟩] (by decide) hchain
  have hall : runAll DebounceMode.LEADING wait (toTrace ((t0, a0, r0) :: cs)) =
      ⟨{ timeoutId := none, lastArgs := some (cs.getLastD (t0, a0, r0)).2.1,
         lastThis := some (cs.getLastD (t0, a0, r0)).2.2, leadingCalled := false },
       [⟨t0, some a0, some r0⟩]⟩ := by
    rw [runAll, hrun]
    simp [finish, fireStep, midState, isTrailingMode]
  refine ⟨by rw [hall], by rw [hall], ?_⟩
  intro t1 a1 r1
  rw [hall]
  simp [callStep, cleanup, isLeadingMode, isTrailingMode]

/-! ## State invariants -/

/-- The two state invariants that hold in every reachable state, even
when the target raises: `lastArgs` is non-null whenever a timer is owned,
and in LEADING/BOTH mode `leadingCalled` is true whenever a timer is
owned. -/
def StateInv {α ρ : Type} (mode : DebounceMode) (s : DState α ρ) : Prop :=
  (s.timeoutId.isSome = true → s.lastArgs.isSome = true) ∧
  (isLeadingMode mode = true → s.timeoutId.isSome = true → s.leadingCalled = true)

lemma stateInv_init {α ρ : Type} (mode : DebounceMode) :
    StateInv mode (initState : DState α ρ) := by
  simp [StateInv, initState]

lemma stateInv_call {α ρ : Type} (mode : DebounceMode) (wait t : Nat) (a : α) (r : ρ)
    (rb : Bool) (s : DState α ρ) (hs : StateInv mode s) :
    StateInv mode (callStep mode wait t a r rb s).1 := by
  unfold callStep
  cases mode <;> cases hlc : s.leadingCalled <;> cases rb <;>
    simp_all [isLeadingMode, isTrailingMode, cleanup, StateInv]

/-- The state after the timer callback is either unchanged (no timer, or
the target raised) or has the handle cleared and `leadingCalled` reset. -/
lemma fireStep_state_cases {α ρ : Type} (rb : Bool) (s : DState α ρ) :
    (fireStep rb s).1 = s ∨
    (fireStep rb s).1 = { s with timeoutId := none, leadingCalled := false } := by
  obtain ⟨tid, la, lt, lc⟩ := s
  cases tid with
  | none => exact Or.inl rfl
  | some tm =>
    by_cases hc : (tm.shouldCallTrailing && (!tm.shouldCallLeading || lc)) = true
    · cases rb
      · exact Or.inr (by simp [fireStep, hc])
      · exact Or.inl (by simp [fireStep, hc])
    · exact Or.inr (by simp [fireStep, hc])

lemma stateInv_fire {α ρ : Type} (mode : DebounceMode) (rb : Bool) (s : DState α ρ)
    (hs : StateInv mode s) : StateInv mode (fireStep rb s).1 := by
  rcases fireStep_state_cases rb s with h | h
  · rw [h]; exact hs
  · rw [h]; exact ⟨by simp, fun _ => by simp⟩

lemma stateInv_cancel {α ρ : Type} (mode : DebounceMode) (s : DState α ρ) :
    StateInv mode (cancelStep s) := by
  simp [StateInv, cancelStep, cleanup]

lemma stateInv_flush {α ρ : Type} (mode : DebounceMode) (t : Nat) (rb : Bool)
    (s : DState α ρ) (hs : StateInv mode s) : StateInv mode (flushStep t rb s).1 := by
  unfold flushStep
  obtain ⟨h1, h2⟩ := hs
  cases rb <;> split <;> simp_all [StateInv, cleanup]

lemma stateInv_fireIfDue {α ρ : Type} (mode : DebounceMode) (t : Nat)
    (rs : RunState α ρ) (hs : StateInv mode rs.st) :
    StateInv mode (fireIfDue t rs).st := by
  unfold fireIfDue
  cases htm : rs.st.timeoutId with
  | none => exact hs
  | some tm =>
    by_cases hd : tm.deadline ≤ t
    · simpa [hd] using stateInv_fire mode false rs.st hs
    · simpa [hd] using hs

lemma stateInv_procEvent {α ρ : Type} (mode : DebounceMode) (wait t : Nat)
    (e : Event α ρ) (rs : RunState α ρ) (hs : StateInv mode rs.st) :
    StateInv mode (procEvent mode wait t e rs).st := by
  have h1 := stateInv_fireIfDue mode t rs hs
  unfold procEvent
  cases e with
  | call a r rb => exact stateInv_call mode wait t a r rb _ h1
  | cancel => exact stateInv_cancel mode _
  | flush rb => exact stateInv_flush mode t rb _ h1

lemma stateInv_runEvents {α ρ : Type} (mode : DebounceMode) (wait : Nat) :
    ∀ (tr : List (Nat × Event α ρ)) (rs : RunState α ρ),
      StateInv mode rs.st → StateInv mode (runEvents mode wait tr rs).st := by
  intro tr
  induction tr with
  | nil => intro rs hs; exact hs
  | cons p rest ih =>
    intro rs hs
    obtain ⟨t, e⟩ := p
    exact ih _ (stateInv_procEvent mode wait t e rs hs)

/-- Every reachable controller state satisfies the state invariants. -/
lemma reachable_inv {α ρ : Type} {mode : DebounceMode} {wait : Nat} {s : DState α ρ}
    (hr : Reachable mode wait s) : StateInv mode s := by
  obtain ⟨tr, htr⟩ := hr
  exact htr ▸ stateInv_runEvents mode wait tr ⟨initState, []⟩ (stateInv_init mode)

/-! ## The stronger invariant on traces whose flushes do not raise -/

/-- The full §3 invariant: the reachable-state invariants together with
`leadingCalled` being true only while a timer is owned.  The latter can
be broken by a target that raises during `flush`. -/
def CleanInv {α ρ : Type} (mode : DebounceMode) (s : DState α ρ) : Prop :=
  StateInv mode s ∧ (s.leadingCalled = true → s.timeoutId.isSome = true)

lemma cleanInv_init {α ρ : Type} (mode : DebounceMode) :
    CleanInv mode (initState : DState α ρ) :=
  ⟨stateInv_init mode, by simp [initState]⟩

lemma cleanInv_call {α ρ : Type} (mode : DebounceMode) (wait t : Nat) (a : α) (r : ρ)
    (rb : Bool) (s : DState α ρ) (hs : CleanInv mode s) :
    CleanInv mode (callStep mode wait t a r rb s).1 := by
  refine ⟨stateInv_call mode wait t a r rb s hs.1, ?_⟩
  obtain ⟨tid, la, lt, lc⟩ := s
  cases hm : isLeadingMode mode <;> cases lc <;> cases rb <;>
    simp [callStep, cleanup, hm]

lemma cleanInv_cancel {α ρ : Type} (mode : DebounceMode) (s : DState α ρ) :
    CleanInv mode (cancelStep s) := by
  exact ⟨stateInv_cancel mode s, by simp [cancelStep, cleanup]⟩

lemma cleanInv_fire {α ρ : Type} (mode : DebounceMode) (rb : Bool) (s : DState α ρ)
    (hs : CleanInv mode s) : CleanInv mode (fireStep rb s).1 := by
  refine ⟨stateInv_fire mode rb s hs.1, ?_⟩
  rcases fireStep_state_cases rb s with h | h
  · rw [h]; exact hs.2
  · rw [h]; simp

lemma cleanInv_flush {α ρ : Type} (mode : DebounceMode) (t : Nat) (s : DState α ρ)
    (hs : CleanInv mode s) : CleanInv mode (flushStep t false s).1 := by
  refine ⟨stateInv_flush mode t false s hs.1, ?_⟩
  by_cases hg : (s.timeoutId.isSome && s.lastArgs.isSome) = true
  · simp [flushStep, hg, cleanup]
  · simpa [flushStep, hg] using hs.2

lemma cleanInv_fireIfDue {α ρ : Type} (mode : DebounceMode) (t : Nat)
    (rs : RunState α ρ) (hs : CleanInv mode rs.st) :
    CleanInv mode (fireIfDue t rs).st := by
  unfold fireIfDue
  cases htm : rs.st.timeoutId with
  | none => exact hs
  | some tm =>
    by_cases hd : tm.deadline ≤ t
    · simpa [hd] using cleanInv_fire mode false rs.st hs
    · simpa [hd] using hs

lemma cleanInv_procEvent {α ρ : Type} (mode : DebounceMode) (wait t : Nat)
    (e : Event α ρ) (he : e ≠ Event.flush true) (rs : RunState α ρ)
    (hs : CleanInv mode rs.st) : CleanInv mode (procEvent mode wait t e rs).st := by
  have h1 := cleanInv_fireIfDue mode t rs hs
  unfold procEvent
  cases e with
  | call a r rb => exact cleanInv_call mode wait t a r rb _ h1
  | cancel => exact cleanInv_cancel mode _
  | flush rb =>
    cases rb with
    | false => exact cleanInv_flush mode t _ h1
    | true => exact absurd rfl he

lemma cleanInv_runEvents {α ρ : Type} (mode : DebounceMode) (wait : Nat) :
    ∀ (tr : List (Nat × Event α ρ)) (rs : RunState α ρ),
      (∀ p ∈ tr, p.2 ≠ Event.flush true) → CleanInv mode rs.st →
      CleanInv mode (runEvents mode wait tr rs).st := by
  intro tr
  induction tr with
  | nil => intro rs _ hs; exact hs
  | cons p rest ih =>
    intro rs hcl hs
    obtain ⟨t, e⟩ := p
    exact ih _ (fun q hq => hcl q (List.mem_cons_of_mem _ hq))
      (cleanInv_procEvent mode wait t e (hcl (t, e) (List.mem_cons_self _ _)) rs hs)

/-- The controller state after delivering a trace to a fresh controller. -/
def finalState {α ρ : Type} (mode : DebounceMode) (wait : Nat)
    (tr : List (Nat × Event α ρ)) : DState α ρ :=
  (runEvents mode wait tr ⟨initState, []⟩).st

/-- A non-raising fire resets `leadingCalled`, given that `leadingCalled`
is true only while a timer is owned. -/
lemma fireStep_resets {α ρ : Type} (s : DState α ρ)
    (h : s.leadingCalled = true → s.timeoutId.isSome = true) :
    (fireStep false s).1.leadingCalled = false := by
  obtain ⟨tid, la, lt, lc⟩ := s
  cases tid with
  | none =>
    cases lc with
    | false => rfl
    | true => exact absurd (h rfl) (by simp)
  | some tm =>
    by_cases hc : (tm.shouldCallTrailing && (!tm.shouldCallLeading || lc)) = true <;>
      simp [fireStep, hc]

/-- A non-raising flush resets `leadingCalled`, given the two clean
invariants. -/
lemma flushStep_resets {α ρ : Type} (t : Nat) (s : DState α ρ)
    (h1 : s.timeoutId.isSome = true → s.lastArgs.isSome = true)
    (h2 : s.leadingCalled = true → s.timeoutId.isSome = true) :
    (flushStep t false s).1.leadingCalled = false := by
  by_cases hg : (s.timeoutId.isSome && s.lastArgs.isSome) = true
  · simp [flushStep, hg, cleanup]
  · simp only [flushStep, hg, if_neg, Bool.not_eq_true]
    cases hl : s.leadingCalled with
    | false => simp [hg, hl]
    | true => exact absurd (by rw [h2 hl, h1 (h2 hl)]; rfl) hg

/-- A non-raising call never resets `leadingCalled`. -/
lemma callStep_keeps {α ρ : Type} (mode : DebounceMode) (wait t : Nat) (a : α) (r : ρ)
    (s : DState α ρ) (hl : s.leadingCalled = true) :
    (callStep mode wait t a r false s).1.leadingCalled = true := by
  simp [callStep, cleanup, hl]

/-! ## Claim theorems: invariants and control operations -/

/-- C5 (amended): for every state reached by a trace in which the target
never raises during `flush()`, at most one timer handle is owned
(structural in the model), `lastArgs` is non-null whenever a timer is
pending, and `leadingCalled` is true only while a timer is pending; it is
reset to false exactly by the timer firing, `cancel` or `flush`, and
never by a further call. -/
theorem controller_invariants {α ρ : Type} (mode : DebounceMode) (wait : Nat)
    (tr : List (Nat × Event α ρ)) (hcl : ∀ p ∈ tr, p.2 ≠ Event.flush true) :
    ((finalState mode wait tr).timeoutId.isSome = true →
      (finalState mode wait tr).lastArgs.isSome = true) ∧
    ((finalState mode wait tr).leadingCalled = true →
      (finalState mode wait tr).timeoutId.isSome = true) ∧
    (cancelStep (finalState mode wait tr)).leadingCalled = false ∧
    (fireStep false (finalState mode wait tr)).1.leadingCalled = false ∧
    (∀ t : Nat, (flushStep t false (finalState mode wait tr)).1.leadingCalled = false) ∧
    (∀ (t1 : Nat) (a : α) (r : ρ), (finalState mode wait tr).leadingCalled = true →
      (callStep mode wait t1 a r false (finalState mode wait tr)).1.leadingCalled = true) := by
  obtain ⟨⟨h1, _⟩, h2⟩ :=
    cleanInv_runEvents mode wait tr ⟨initState, []⟩ hcl (cleanInv_init mode)
  exact ⟨h1, h2, rfl, fireStep_resets _ h2, fun t => flushStep_resets t _ h1 h2,
    fun t1 a r hl => callStep_keeps mode wait t1 a r _ hl⟩

/-- C5 counterexample: in BOTH mode, a call at time 0 followed at time 1
by a `flush` during which the target raises leaves `leadingCalled = true`
with no timer pending, refuting the claim for targets that may raise. -/
theorem controller_invariants_counterexample :
    (runEvents DebounceMode.BOTH 5
        [((0 : Nat), Event.call (1 : Nat) () false), (1, Event.flush true)]
        ⟨initState, []⟩).st.leadingCalled = true ∧
    (runEvents DebounceMode.BOTH 5
        [((0 : Nat), Event.call (1 : Nat) () false), (1, Event.flush true)]
        ⟨initState, []⟩).st.timeoutId = none := by
  decide

/-- C6: on every reachable state, a (non-raising) `flush` invokes the
target if and only if a timer is pending; when pending it releases the
handle, invokes the target once with the recorded receiver and
arguments, resets `leadingCalled`, and leaves `pending()` false; when
nothing is pending it is a complete no-op that does not raise. -/
theorem flush_pending_spec {α ρ : Type} (mode : DebounceMode) (wait t : Nat)
    (s : DState α ρ) (hr : Reachable mode wait s) :
    (pendingQ s = true →
      flushStep t false s =
        ({ timeoutId := none, lastArgs := s.lastArgs, lastThis := s.lastThis,
           leadingCalled := false }, [⟨t, s.lastArgs, s.lastThis⟩], false)) ∧
    (pendingQ s = false → flushStep t false s = (s, [], false)) ∧
    ((flushStep t false s).2.1 = [] ↔ pendingQ s = false) ∧
    pendingQ (flushStep t false s).1 = false := by
  obtain ⟨h1, _⟩ := reachable_inv hr
  by_cases hp : s.timeoutId.isSome = true
  · have hla : s.lastArgs.isSome = true := h1 hp
    have hg : (s.timeoutId.isSome && s.lastArgs.isSome) = true := by
      rw [hp, hla]; rfl
    have hflush : flushStep t false s =
        ({ timeoutId := none, lastArgs := s.lastArgs, lastThis := s.lastThis,
           leadingCalled := false }, [⟨t, s.lastArgs, s.lastThis⟩], false) := by
      simp [flushStep, hg, cleanup]
    refine ⟨fun _ => hflush, fun hf => ?_, ?_, ?_⟩
    · rw [show pendingQ s = s.timeoutId.isSome from rfl, hp] at hf
      exact absurd hf (by simp)
    · simp [hflush, pendingQ, hp]
    · simp [hflush, pendingQ]
  · have hps : s.timeoutId.isSome = false := by
      cases hval : s.timeoutId.isSome
      · rfl
      · exact absurd hval hp
    have hg : (s.timeoutId.isSome && s.lastArgs.isSome) = false := by
      rw [hps]; rfl
    have hflush : flushStep t false s = (s, [], false) := by
      simp [flushStep, hg]
    refine ⟨fun hptrue => ?_, fun _ => hflush, ?_, ?_⟩
    · rw [show pendingQ s = s.timeoutId.isSome from rfl, hps] at hptrue
      exact absurd hptrue (by simp)
    · simp [hflush, pendingQ, hps]
    · simp [hflush, pendingQ, hps]

/-- C7: `cancel` releases any pending timer handle without invoking the
target, resets `leadingCalled`, is idempotent and safe with no pending
timer; after it the suppressed trailing fire can never happen, and in
LEADING or BOTH mode the next call fires the leading edge immediately. -/
theorem cancel_spec {α ρ : Type} (s : DState α ρ) :
    cancelStep s = { timeoutId := none, lastArgs := s.lastArgs,
                     lastThis := s.lastThis, leadingCalled := false } ∧
    pendingQ (cancelStep s) = false ∧
    cancelStep (cancelStep s) = cancelStep s ∧
    fireStep false (cancelStep s) = (cancelStep s, [], false) ∧
    (∀ (mode : DebounceMode) (wait t1 : Nat) (a : α) (r : ρ),
      isLeadingMode mode = true →
      (callStep mode wait t1 a r false (cancelStep s)).2.1
        = [⟨t1, some a, some r⟩]) := by
  refine ⟨rfl, rfl, rfl, rfl, ?_⟩
  intro mode wait t1 a r hm
  simp [callStep, cancelStep, cleanup, hm]

/-- C8: `pending()` is the pure query of timer-handle ownership: false on
a fresh controller, true immediately after any non-raising call, false
after the timer fires, after `cancel`, and after `flush`. -/
theorem pending_spec {α ρ : Type} (mode : DebounceMode) (wait t : Nat)
    (s : DState α ρ) (hr : Reachable mode wait s) :
    pendingQ (initState : DState α ρ) = false ∧
    (∀ (a : α) (r : ρ), pendingQ (callStep mode wait t a r false s).1 = true) ∧
    (s.timeoutId.isSome = true → pendingQ (fireStep false s).1 = false) ∧
    pendingQ (cancelStep s) = false ∧
    pendingQ (flushStep t false s).1 = false ∧
    pendingQ s = s.timeoutId.isSome := by
  obtain ⟨h1, _⟩ := reachable_inv hr
  refine ⟨rfl, ?_, ?_, rfl, ?_, rfl⟩
  · intro a r
    by_cases hl : s.leadingCalled = true <;> cases hm : isLeadingMode mode <;>
      simp [callStep, cleanup, pendingQ, hl, hm]
  · intro hp
    obtain ⟨tid, la, lt, lc⟩ := s
    cases tid with
    | none => simp at hp
    | some tm =>
      by_cases hc : (tm.shouldCallTrailing && (!tm.shouldCallLeading || lc)) = true <;>
        simp [fireStep, pendingQ, hc]
  · by_cases hg : (s.timeoutId.isSome && s.lastArgs.isSome) = true
    · simp [flushStep, hg, pendingQ, cleanup]
    · have hps : s.timeoutId.isSome = false := by
        cases hval : s.timeoutId.isSome
        · rfl
        · exact absurd (by rw [hval, h1 hval]; rfl) hg
      simp [flushStep, hg, pendingQ, hps]

/-- C9: in LEADING or BOTH mode, when the target raises during the
leading-edge invocation of a call, the exception propagates with any
previous timer already cancelled, no new timer scheduled, the call's
arguments and receiver already recorded, and `leadingCalled` still
false, so the next call fires the leading edge again. -/
theorem leading_raise_spec {α ρ : Type} (mode : DebounceMode) (wait t : Nat)
    (a : α) (r : ρ) (s : DState α ρ) (hm : isLeadingMode mode = true)
    (hlc : s.leadingCalled = false) :
    callStep mode wait t a r true s =
      ({ timeoutId := none, lastArgs := some a, lastThis := some r,
         leadingCalled := false }, [⟨t, some a, some r⟩], true) ∧
    pendingQ (callStep mode wait t a r true s).1 = false ∧
    (∀ (t1 : Nat) (a1 : α) (r1 : ρ),
      (callStep mode wait t1 a1 r1 false (callStep mode wait t a r true s).1).2.1
        = [⟨t1, some a1, some r1⟩]) := by
  have hcall : callStep mode wait t a r true s =
      ({ timeoutId := none, lastArgs := some a, lastThis := some r,
         leadingCalled := false }, [⟨t, some a, some r⟩], true) := by
    simp [callStep, cleanup, hm, hlc]
  refine ⟨hcall, by simp [hcall, pendingQ], ?_⟩
  intro t1 a1 r1
  rw [hcall]
  simp [callStep, cleanup, hm]

/-- C10: when the target raises during a `flush` performed while a timer
is pending, the handle has already been released (so `pending()` is
false afterwards) but `leadingCalled` is not reset; hence in LEADING or
BOTH mode the next call does not fire a leading edge. -/
theorem flush_raise_spec {α ρ : Type} (mode : DebounceMode) (wait t : Nat)
    (s : DState α ρ) (hr : Reachable mode wait s)
    (hp : s.timeoutId.isSome = true) :
    flushStep t true s =
      ({ timeoutId := none, lastArgs := s.lastArgs, lastThis := s.lastThis,
         leadingCalled := s.leadingCalled }, [⟨t, s.lastArgs, s.lastThis⟩], true) ∧
    pendingQ (flushStep t true s).1 = false ∧
    (isLeadingMode mode = true →
      s.leadingCalled = true ∧
      (∀ (t1 : Nat) (a1 : α) (r1 : ρ),
        (callStep mode wait t1 a1 r1 false (flushStep t true s).1).2.1 = [])) := by
  obtain ⟨h1, h2⟩ := reachable_inv hr
  have hla : s.lastArgs.isSome = true := h1 hp
  have hg : (s.timeoutId.isSome && s.lastArgs.isSome) = true := by
    rw [hp, hla]; rfl
  have hflush : flushStep t true s =
      ({ timeoutId := none, lastArgs := s.lastArgs, lastThis := s.lastThis,
         leadingCalled := s.leadingCalled }, [⟨t, s.lastArgs, s.lastThis⟩], true) := by
    simp [flushStep, hg, cleanup]
  refine ⟨hflush, by simp [hflush, pendingQ], fun hm => ⟨h2 hm hp, ?_⟩⟩
  intro t1 a1 r1
  have hl : s.leadingCalled = true := h2 hm hp
  rw [hflush]
  simp [callStep, cleanup, hl]

/-! ## Construction: `debounce(fn, wait, modeOrOptions)` (lines 29-54)

The three arguments are dynamically typed JavaScript values; we model
exactly the distinctions the source makes.  For the `mode` property of
an options object, strict equality against the three enum strings never
matches a non-string, so all non-string, non-nullish property values are
collapsed into one constructor. -/

/-- The `typeof fn === "function"` distinction for the first argument. -/
inductive FnArg where
  | func
  | notFunc
deriving DecidableEq, Repr

/-- The values relevant to the `wait` argument: omitted (`undefined`),
`null`, a finite number, `NaN` (whose `typeof` is still `"number"` and
for which `NaN < 0` is false), or a value of non-number type. -/
inductive WaitArg where
  | undef
  | jnull
  | num (q : ℚ)
  | nan
  | notNumber
deriving DecidableEq, Repr

/-- The possible `mode` property of an options object: missing,
explicitly `undefined`, `null`, a string, or a value of any other
type. -/
inductive ModeProp where
  | missing
  | undefProp
  | nullProp
  | strProp (s : String)
  | otherProp
deriving DecidableEq, Repr

/-- The values relevant to the `modeOrOptions` argument: `undefined`
(omitted), `null`, a bare string, an object carrying a `mode` property,
or any other primitive, which is not a string and has no `mode`
property. -/
inductive JSVal where
  | undef
  | jnull
  | str (s : String)
  | objVal (modeProp : ModeProp)
  | otherPrim
deriving DecidableEq, Repr

/-- `wait = wait ?? 0` (line 35): `??` replaces `undefined` and `null`
by the default `0`. -/
def resolveWait : WaitArg → WaitArg
  | .undef => .num 0
  | .jnull => .num 0
  | w => w

/-- `typeof wait !== "number" || wait < 0` (line 48). -/
def waitInvalid : WaitArg → Bool
  | .num q => decide (q < 0)
  | .nan => false
  | _ => true

/-- Lines 38-41: a string argument is the mode itself; otherwise
`modeOrOptions?.mode ?? DebounceMode.TRAILING`: optional chaining yields
the object's `mode` property (or `undefined` for values without one),
and `??` replaces `undefined`/`null` by the string `"trailing"`. -/
def resolveMode : JSVal → JSVal
  | .str s => .str s
  | .objVal (.strProp s) => .str s
  | .objVal .otherProp => .otherPrim
  | _ => .str "trailing"

/-- `Object.values(DebounceMode)` (line 52): the three enum strings. -/
def modeValues : List String := ["trailing", "leading", "both"]

/-- `Object.values(DebounceMode).includes(mode)`: strict equality against
the enum strings, so only a string value can ever be included. -/
def includesMode : JSVal → Bool
  | .str s => modeValues.contains s
  | _ => false

/-- The string value of each `DebounceMode` enum member. -/
def modeString : DebounceMode → String
  | .TRAILING => "trailing"
  | .LEADING => "leading"
  | .BOTH => "both"

/-- The enum member a validated mode string denotes. -/
def toDebounceMode : JSVal → DebounceMode
  | .str "leading" => DebounceMode.LEADING
  | .str "both" => DebounceMode.BOTH
  | _ => DebounceMode.TRAILING

/-- The three `TypeError` raises of `debounce` (lines 44-54),
distinguished by message. -/
inductive ConstructionError where
  | expectedFunction
  | expectedWait
  | invalidMode
deriving DecidableEq, Repr

/-- A successfully constructed controller: resolved wait and mode, and
the fresh closure state. -/
structure Controller (α ρ : Type) where
  waitMs : WaitArg
  mode : DebounceMode
  st : DState α ρ
deriving DecidableEq, Repr

/-- `debounce(fn, wait, modeOrOptions)` (lines 29-117): defaulting of
`wait`, normalization of the mode, the three validations in source
order, then the controller closing over fresh state. -/
def debounceCreate (α ρ : Type) (fn : FnArg) (w : WaitArg)
    (modeOrOptions : JSVal) : Except ConstructionError (Controller α ρ) :=
  let wait := resolveWait w
  let mode := resolveMode modeOrOptions
  if fn ≠ FnArg.func then
    .error .expectedFunction
  else if waitInvalid wait then
    .error .expectedWait
  else if !includesMode mode then
    .error .invalidMode
  else
    .ok ⟨wait, toDebounceMode mode, initState⟩

/-- The spec-side rejection condition for `waitMs`: negative, or of
non-number type (after the `?? 0` default; `NaN` passes the source's
check since its type is number and it is not less than zero). -/
def specWaitRejected : WaitArg → Prop
  | .undef => False
  | .jnull => False
  | .num q => q < 0
  | .nan => False
  | .notNumber => True

/-- The spec-side rejection condition for the mode: the resolved mode
value is none of the three recognized enum values. -/
def specModeRejected (moo : JSVal) : Prop :=
  ∀ m : DebounceMode, resolveMode moo ≠ JSVal.str (modeString m)

lemma waitInvalid_iff (w : WaitArg) :
    waitInvalid (resolveWait w) = true ↔ specWaitRejected w := by
  cases w <;> simp [resolveWait, waitInvalid, specWaitRejected]

lemma includesMode_eq_false_iff (v : JSVal) :
    includesMode v = false ↔ ∀ m : DebounceMode, v ≠ JSVal.str (modeString m) := by
  cases v with
  | str s =>
    constructor
    · intro h m heq
      cases m <;>
        (injection heq with hs; subst hs; exact absurd h (by decide))
    · intro h
      have h1 : s ≠ "trailing" := fun hs => h .TRAILING (by rw [hs]; rfl)
      have h2 : s ≠ "leading" := fun hs => h .LEADING (by rw [hs]; rfl)
      have h3 : s ≠ "both" := fun hs => h .BOTH (by rw [hs]; rfl)
      simp [includesMode, modeValues, h1, h2, h3]
  | undef => simp [includesMode]
  | jnull => simp [includesMode]
  | objVal p => simp [includesMode]
  | otherPrim => simp [includesMode]

lemma debounceCreate_error_iff (α ρ : Type) (fn : FnArg) (w : WaitArg) (moo : JSVal) :
    (∃ e, debounceCreate α ρ fn w moo = Except.error e) ↔
      (fn ≠ FnArg.func ∨ waitInvalid (resolveWait w) = true ∨
        includesMode (resolveMode moo) = false) := by
  by_cases hf : fn = FnArg.func
  · subst hf
    cases hw : waitInvalid (resolveWait w) <;>
      cases hm : includesMode (resolveMode moo) <;>
        simp [debounceCreate, hw, hm]
  · simp [debounceCreate, hf]

/-- C4 (amended): construction raises `TypeError` exactly when the target
is not callable, the defaulted wait is negative or of non-number type, or
the resolved mode is not one of the three recognized values — where the
resolved mode is the bare argument when it is a string, else the options
object's string `mode` property; a missing/`null`/`undefined` property
and every non-string bare argument resolve to the default TRAILING and
are accepted.  On success the controller starts with no pending timer
and `leadingCalled` false, with wait defaulting to 0 and mode to
TRAILING. -/
theorem construction_spec (α ρ : Type) (fn : FnArg) (w : WaitArg) (moo : JSVal) :
    ((∃ e, debounceCreate α ρ fn w moo = Except.error e) ↔
      (fn ≠ FnArg.func ∨ specWaitRejected w ∨ specModeRejected moo)) ∧
    (∀ c : Controller α ρ, debounceCreate α ρ fn w moo = Except.ok c →
      c.st = initState ∧ pendingQ c.st = false ∧ c.st.leadingCalled = false ∧
      c.waitMs = resolveWait w ∧ c.mode = toDebounceMode (resolveMode moo)) ∧
    debounceCreate α ρ FnArg.func WaitArg.undef JSVal.undef =
      Except.ok ⟨WaitArg.num 0, DebounceMode.TRAILING, initState⟩ := by
  refine ⟨?_, ?_, ?_⟩
  · rw [debounceCreate_error_iff]
    exact or_congr Iff.rfl (or_congr (waitInvalid_iff w) (includesMode_eq_false_iff _))
  · intro c hc
    simp only [debounceCreate] at hc
    split at hc
    · exact absurd hc (by simp)
    · split at hc
      · exact absurd hc (by simp)
      · split at hc
        · exact absurd hc (by simp)
        · injection hc with h
          subst h
          exact ⟨rfl, rfl, rfl, rfl, rfl⟩
  · rfl

/-- C4 counterexample: a bare `modeOrOptions` value of non-string,
non-object type is not one of the three recognized modes, yet
construction succeeds (it silently resolves to TRAILING) instead of
rejecting it. -/
theorem construction_mode_counterexample :
    JSVal.otherPrim ≠ JSVal.str (modeString DebounceMode.TRAILING) ∧
    JSVal.otherPrim ≠ JSVal.str (modeString DebounceMode.LEADING) ∧
    JSVal.otherPrim ≠ JSVal.str (modeString DebounceMode.BOTH) ∧
    includesMode JSVal.otherPrim = false ∧
    debounceCreate Nat Unit FnArg.func (WaitArg.num 0) JSVal.otherPrim =
      Except.ok ⟨WaitArg.num 0, DebounceMode.TRAILING, initState⟩ :=
  ⟨by decide, by decide, by decide, by decide, rfl⟩

/-! ## Witnesses -/

/-- The example burst of §8 of the spec: wait 100, calls at instants 0
and 50, spaced 50 < 100 apart. -/
lemma spaced_example_chain :
    List.Chain' (spaced 100) [((0 : Nat), (1 : Nat), ()), (50, 2, ())] :=
  List.Chain.cons ⟨by decide, by decide⟩ List.Chain.nil

theorem trailing_burst_unique_witness :
    List.Chain' (spaced 100) [((0 : Nat), (1 : Nat), ()), (50, 2, ())] ∧
    (runAll DebounceMode.TRAILING 100
        (toTrace [((0 : Nat), (1 : Nat), ()), (50, 2, ())])).log
      = [⟨150, some 2, some ()⟩] :=
  ⟨spaced_example_chain,
   (trailing_burst_unique 100 (0, 1, ()) [(50, 2, ())] spaced_example_chain).2⟩

theorem both_burst_two_invocations_witness :
    (runAll DebounceMode.BOTH 100
        (toTrace [((0 : Nat), (1 : Nat), ()), (50, 2, ())])).log
      = [⟨0, some 1, some ()⟩, ⟨150, some 2, some ()⟩] :=
  (both_burst_two_invocations 100 (0, 1, ()) [(50, 2, ())] spaced_example_chain).2.2

theorem leading_burst_single_invocation_witness :
    (runAll DebounceMode.LEADING 100
        (toTrace [((0 : Nat), (1 : Nat), ()), (50, 2, ())])).log
      = [⟨0, some 1, some ()⟩] :=
  (leading_burst_single_invocation 100 (0, 1, ()) [(50, 2, ())] spaced_example_chain).1

theorem construction_spec_witness :
    debounceCreate Nat Unit FnArg.func WaitArg.undef JSVal.undef =
      Except.ok ⟨WaitArg.num 0, DebounceMode.TRAILING, initState⟩ :=
  (construction_spec Nat Unit FnArg.func WaitArg.undef JSVal.undef).2.2

theorem controller_invariants_witness :
    (cancelStep (finalState DebounceMode.BOTH 5
        [((0 : Nat), Event.call (1 : Nat) () false)])).leadingCalled = false :=
  (controller_invariants DebounceMode.BOTH 5
    [((0 : Nat), Event.call (1 : Nat) () false)] (by decide)).2.2.1

theorem flush_pending_spec_witness :
    pendingQ (flushStep 7 false
      (runEvents DebounceMode.TRAILING 5 [((0 : Nat), Event.call (1 : Nat) () false)]
        ⟨initState, []⟩).st).1 = false :=
  (flush_pending_spec DebounceMode.TRAILING 5 7 _
    ⟨[((0 : Nat), Event.call (1 : Nat) () false)], rfl⟩).2.2.2

theorem cancel_spec_witness :
    (callStep DebounceMode.LEADING 5 2 (9 : Nat) () false
      (cancelStep (initState : DState Nat Unit))).2.1 = [⟨2, some 9, some ()⟩] :=
  (cancel_spec (initState : DState Nat Unit)).2.2.2.2 DebounceMode.LEADING 5 2 9 () rfl

theorem pending_spec_witness :
    pendingQ (cancelStep
      (runEvents DebounceMode.TRAILING 5 [((0 : Nat), Event.call (1 : Nat) () false)]
        ⟨initState, []⟩).st) = false :=
  (pending_spec DebounceMode.TRAILING 5 7 _
    ⟨[((0 : Nat), Event.call (1 : Nat) () false)], rfl⟩).2.2.2.1

theorem leading_raise_spec_witness :
    callStep DebounceMode.LEADING 5 0 (1 : Nat) () true (initState : DState Nat Unit) =
      ({ timeoutId := none, lastArgs := some 1, lastThis := some (),
         leadingCalled := false }, [⟨0, some 1, some ()⟩], true) :=
  (leading_raise_spec DebounceMode.LEADING 5 0 1 () initState (by decide) rfl).1

theorem flush_raise_spec_witness :
    pendingQ (flushStep 3 true
      (runEvents DebounceMode.BOTH 5 [((0 : Nat), Event.call (1 : Nat) () false)]
        ⟨initState, []⟩).st).1 = false :=
  (flush_raise_spec DebounceMode.BOTH 5 3 _
    ⟨[((0 : Nat), Event.call (1 : Nat) () false)], rfl⟩ (by decide)).2.1

end Debounce
